import Mathlib

/-!
Shallow embedding of `ECG_Extract.py` (the whole repository is this single
file).  Python strings are modelled as `List Char` (wrapped in `String` at the
public interface), restricted to ASCII text, which is all the clinical report
templates use.  Python `datetime` values are modelled as integers counting
microseconds from the proleptic-Gregorian day 0 (so the `datetime` produced by
`strptime` for a date is `ordinal * usecPerDay`, midnight of that day), and
`timedelta(days=1)` is `usecPerDay`; `timedelta` comparison is exact comparison
of total microseconds, which this mirrors.  Fallible Python code (a raised
`ValueError` from `strptime`, a raised `TypeError` from `re.sub` applied to a
non-string) is modelled with `Except PyErr`.
-/

namespace ECG

/-- Python `\s` / `str.strip` whitespace, ASCII range. -/
def pyIsSpace (c : Char) : Bool :=
  c == ' ' || c == '\t' || c == '\n' || c == '\r' || c == '\x0b' || c == '\x0c'

/-- Python `\w`, ASCII range: letters, digits, underscore. -/
def pyIsWord (c : Char) : Bool :=
  c.isAlphanum || c == '_'

/-- Case folding used to model `re.I` on ASCII literals. -/
def lowerList (s : List Char) : List Char := s.map Char.toLower

/-- Python `str.strip()`: drop whitespace from both ends. -/
def pyStrip (s : List Char) : List Char :=
  ((s.dropWhile pyIsSpace).reverse.dropWhile pyIsSpace).reverse

/-- Match a literal at the head of the text; on success return the suffix
after it.  This is how a regex literal (sequence of plain characters)
matches at a fixed position. -/
def expectLit : List Char → List Char → Option (List Char)
  | [], s => some s
  | _ :: _, [] => none
  | c :: l, x :: s => if x = c then expectLit l s else none

/-- Scan of `re.search` for a plain literal: does the literal occur at any
position of the text? -/
def containsLit (p : List Char) : List Char → Bool
  | [] => (expectLit p []).isSome
  | s@(_ :: rest) => (expectLit p s).isSome || containsLit p rest

/-- Backtracking of a greedy `.*` (no-`DOTALL`, so it cannot cross a newline)
followed by the sub-pattern `tryAt`: the engine first extends `.*` as far as it
can within the current line element, then retreats until `tryAt` matches; so
the deepest (rightmost) position where `tryAt` matches wins.  Returns the text
after the whole match. -/
def greedyDotStar (tryAt : List Char → Option (List Char)) : List Char → Option (List Char)
  | [] => tryAt []
  | s@(c :: rest) =>
    if c = '\n' then tryAt s
    else
      match greedyDotStar tryAt rest with
      | some r => some r
      | none => tryAt s

/-- Scan of `re.sub(pat, chars, text)` with an empty replacement: at each position try
the pattern; on a match drop the matched span and continue after it, otherwise
keep the character and move on.  `fuel` is the length of the text; every
pattern used here consumes at least one character, so the fuel never runs
out. -/
def scanSub (matchAt : List Char → Option (List Char)) : Nat → List Char → List Char
  | 0, s => s
  | _ + 1, [] => []
  | fuel + 1, s@(c :: rest) =>
    match matchAt s with
    | some t => scanSub matchAt fuel t
    | none => c :: scanSub matchAt fuel rest

/-- Character-class checks of the regex date shape `\d{2}-\w{3}-\d{4}`. -/
def dateClassOk (d1 d2 h1 m1 m2 m3 h2 y1 y2 y3 y4 : Char) : Bool :=
  d1.isDigit && d2.isDigit && h1 == '-' && pyIsWord m1 && pyIsWord m2 && pyIsWord m3 &&
  h2 == '-' && y1.isDigit && y2.isDigit && y3.isDigit && y4.isDigit

/-- Literal opening of the cited-on parenthetical. -/
def citedLit : List Char := "(cited on or before ".toList

/-- Match of `\(cited on or before \d{2}-\w{3}-\d{4}\)` at the head of the
text; on success return the suffix after the closing parenthesis. -/
def citedAt (s : List Char) : Option (List Char) :=
  match expectLit citedLit s with
  | none => none
  | some t =>
    match t with
    | d1 :: d2 :: h1 :: m1 :: m2 :: m3 :: h2 :: y1 :: y2 :: y3 :: y4 :: cp :: rest =>
      if dateClassOk d1 d2 h1 m1 m2 m3 h2 y1 y2 y3 y4 && cp == ')' then some rest else none
    | _ => none

/-- Match of `.*\(cited on or before \d{2}-\w{3}-\d{4}\)` at the head. -/
def matchCitedAt : List Char → Option (List Char) := greedyDotStar citedAt

/-- `remove_cited_on` of the source:
`re.sub('(.*\(cited on or before \d{2}-\w{3}-\d{4}\))', chars, body)` with an
empty replacement. -/
def remove_cited_on (body : String) : String :=
  String.mk (scanSub matchCitedAt body.toList.length body.toList)

/-- Match of `age\s*undetermined` at the head of the text.  The greedy `\s*`
followed by the literal `u` needs no backtracking: a shorter whitespace run
would leave a whitespace character where `u` is required. -/
def ageTailAt (s : List Char) : Option (List Char) :=
  match expectLit "age".toList s with
  | none => none
  | some t => expectLit "undetermined".toList (t.dropWhile pyIsSpace)

/-- Match of `.*age\s*undetermined` at the head. -/
def matchAgeAt : List Char → Option (List Char) := greedyDotStar ageTailAt

/-- `remove_age_undetermined` of the source:
`re.sub('(.*age\s*undetermined)', chars, body)` with an empty replacement. -/
def remove_age_undetermined (body : String) : String :=
  String.mk (scanSub matchAgeAt body.toList.length body.toList)

/-- The case-sensitive literal of the comparison narrative. -/
def cmpLit : List Char := "When compared with".toList

/-- Truncate the text at the first occurrence of a literal (the pattern
`lit(.|\n)*` matches from there to the end and is replaced by the empty
string). -/
def truncAtLit (lit : List Char) : List Char → List Char
  | [] => []
  | s@(c :: rest) => if (expectLit lit s).isSome then [] else c :: truncAtLit lit rest

/-- `remove_compared_with` of the source:
`re.sub('When compared with(.|\n)*', chars, body)` with an empty
replacement. -/
def remove_compared_with (body : String) : String :=
  String.mk (truncAtLit cmpLit body.toList)

/-- Match of `QTc\s*Int\s*:\s*\d+\s*ms` at the head of the text.  Each greedy
`\s*` / `\d+` run followed by a non-matching required character needs no
backtracking, so maximal munch is exact. -/
def qtcMatchAt (s : List Char) : Option (List Char) :=
  match expectLit "QTc".toList s with
  | none => none
  | some t1 =>
    match expectLit "Int".toList (t1.dropWhile pyIsSpace) with
    | none => none
    | some t2 =>
      match expectLit ":".toList (t2.dropWhile pyIsSpace) with
      | none => none
      | some t3 =>
        let u := t3.dropWhile pyIsSpace
        if (u.takeWhile Char.isDigit).isEmpty then none
        else expectLit "ms".toList ((u.dropWhile Char.isDigit).dropWhile pyIsSpace)

/-- Match of `Referred\s*By:` at the head of the text. -/
def refOk (s : List Char) : Bool :=
  match expectLit "Referred".toList s with
  | none => false
  | some t => (expectLit "By:".toList (t.dropWhile pyIsSpace)).isSome

/-- Greedy group `((?:.|\n)*)` in front of `Referred\s*By:`: the group extends
to the last position where `Referred\s*By:` still matches; returns the group
content (text before that position). -/
def lastRefSplit : List Char → Option (List Char)
  | [] => none
  | s@(c :: rest) =>
    match lastRefSplit rest with
    | some g => some (c :: g)
    | none => if refOk s then some [] else none

/-- Search of `QTc\s*Int\s*:\s*\d+\s*ms((?:.|\n)*)Referred\s*By:` over the
text: try every start from the left; where the QTc marker matches, the greedy
group runs to the last later `Referred\s*By:` (if none follows, the engine
moves to the next start — the marker's possible matches are disjoint, so no
other ending of the marker at the same start needs to be retried). -/
def extractSearch : List Char → Option (List Char)
  | [] => none
  | s@(_ :: rest) =>
    match qtcMatchAt s with
    | some u =>
      match lastRefSplit u with
      | some g => some g
      | none => extractSearch rest
    | none => extractSearch rest

/-- `extract_body` of the source: the group of the search above, stripped;
`none` models the Python return value `False`. -/
def extract_body (report : String) : Option String :=
  (extractSearch report.toList).map fun g => String.mk (pyStrip g)

/-- Literal head of the comparison clause regex
`When compared with ECG of (\d{2}-\w{3}-\d{4})((?:.|\n)*)`. -/
def clauseLit : List Char := "When compared with ECG of ".toList

/-- Match of the comparison clause at the head of the text: on success return
the captured 11-character date string and the second (to-end) group. -/
def clauseAt (s : List Char) : Option (List Char × List Char) :=
  match expectLit clauseLit s with
  | none => none
  | some t =>
    match t with
    | d1 :: d2 :: h1 :: m1 :: m2 :: m3 :: h2 :: y1 :: y2 :: y3 :: y4 :: rest =>
      if dateClassOk d1 d2 h1 m1 m2 m3 h2 y1 y2 y3 y4 then
        some ([d1, d2, h1, m1, m2, m3, h2, y1, y2, y3, y4], rest)
      else none
    | _ => none

/-- First match of the comparison clause (`re.findall` with a to-end second
group yields at most one match, and `hits[0]` takes the first). -/
def findClause : List Char → Option (List Char × List Char)
  | [] => none
  | s@(_ :: rest) =>
    match clauseAt s with
    | some r => some r
    | none => findClause rest

/-- Month abbreviations accepted by `strptime` for `%b` (matched
case-insensitively), in lowercase. -/
def monthAbbrs : List (List Char × Nat) :=
  [("jan".toList, 1), ("feb".toList, 2), ("mar".toList, 3), ("apr".toList, 4),
   ("may".toList, 5), ("jun".toList, 6), ("jul".toList, 7), ("aug".toList, 8),
   ("sep".toList, 9), ("oct".toList, 10), ("nov".toList, 11), ("dec".toList, 12)]

/-- Gregorian leap year. -/
def isLeap (y : Nat) : Bool := y % 4 == 0 && (y % 100 != 0 || y % 400 == 0)

/-- Length of a month. -/
def daysInMonth (y m : Nat) : Nat :=
  if m == 2 then (if isLeap y then 29 else 28)
  else if m == 4 || m == 6 || m == 9 || m == 11 then 30
  else 31

/-- Days before the first of month `m` within year `y`. -/
def daysBeforeMonth (y m : Nat) : Nat :=
  (List.range (m - 1)).foldl (fun acc i => acc + daysInMonth y (i + 1)) 0

/-- Proleptic Gregorian ordinal of a date, as in Python
`date.toordinal` (01-Jan-0001 = 1). -/
def ordinal (y m d : Nat) : Nat :=
  365 * (y - 1) + (y - 1) / 4 - (y - 1) / 100 + (y - 1) / 400 + daysBeforeMonth y m + d

/-- `datetime.strptime(dc, chars)` with format `%d-%b-%Y` applied to the
11-character capture of `\d{2}-\w{3}-\d{4}`: `%d` accepts 01..31 (00 fails),
`%b` a 3-letter month abbreviation case-insensitively, `%Y` the four digits;
the `datetime` constructor then rejects a day beyond the month's length and a
year below 1.  Returns the ordinal of the parsed date, `none` modelling a
raised `ValueError`. -/
def strptime_dby (dc : List Char) : Option Nat :=
  match dc with
  | [d1, d2, h1, m1, m2, m3, h2, y1, y2, y3, y4] =>
    if d1.isDigit && d2.isDigit && h1 == '-' && h2 == '-' &&
       y1.isDigit && y2.isDigit && y3.isDigit && y4.isDigit then
      match monthAbbrs.lookup [m1.toLower, m2.toLower, m3.toLower] with
      | none => none
      | some m =>
        let day := (d1.toNat - 48) * 10 + (d2.toNat - 48)
        let year := (y1.toNat - 48) * 1000 + (y2.toNat - 48) * 100 +
                    (y3.toNat - 48) * 10 + (y4.toNat - 48)
        if 1 ≤ year && 1 ≤ day && day ≤ daysInMonth year m then some (ordinal year m day)
        else none
    else none
  | _ => none

/-- Raised Python exceptions that the modelled code can produce. -/
inductive PyErr where
  | typeError
  | valueError
deriving DecidableEq

deriving instance DecidableEq for Except

/-- Microseconds of `timedelta(days=1)`; datetimes are microsecond counts. -/
def usecPerDay : Int := 86400000000

/-- The to-end second group of the clause regex is searched for this phrase
with `re.I`. -/
def nscLit : List Char := "no significant change".toList

/-- `exclude_no_change` of the source: find the first comparison clause; if
its to-end tail contains "no significant change" case-insensitively, parse the
captured date (a `ValueError` propagates) and exclude when the reference date
exceeds it by strictly more than one day. -/
def exclude_no_change (report : String) (ref_date : Int) : Except PyErr Bool :=
  match findClause report.toList with
  | none => Except.ok false
  | some (dc, t) =>
    if containsLit (lowerList nscLit) (lowerList t) then
      match strptime_dby dc with
      | none => Except.error PyErr.valueError
      | some o => Except.ok (decide (ref_date - (o : Int) * usecPerDay > usecPerDay))
    else Except.ok false

/-- The acute-MI marker searched with `re.I`. -/
def amiLit : List Char := "* acute mi".toList

/-- The infarction root searched with `re.I`. -/
def infLit : List Char := "infarc".toList

/-- `flag_acutemi` of the source: `re.search('\* acute mi', body, re.I)`. -/
def flag_acutemi (body : String) : Bool :=
  containsLit (lowerList amiLit) (lowerList body.toList)

/-- `flag_infarction` of the source: `re.search('infarc', body, re.I)`. -/
def flag_infarction (body : String) : Bool :=
  containsLit (lowerList infLit) (lowerList body.toList)

/-- Scan of `re.search` for an alternation of two literals. -/
def containsEither (p q : List Char) : List Char → Bool
  | [] => (expectLit p []).isSome || (expectLit q []).isSome
  | s@(_ :: rest) => (expectLit p s).isSome || (expectLit q s).isSome || containsEither p q rest

/-- `flag_ischemia` of the source: `re.search('ischem|ischaem', body, re.I)`. -/
def flag_ischemia (body : String) : Bool :=
  containsEither "ischem".toList "ischaem".toList (lowerList body.toList)

/-- The body value returned by `extract_body` flowing into
`remove_cited_on`: its Python `re.sub` raises `TypeError: expected string or
bytes-like object` when handed the failure value `False` instead of a
string. -/
def remove_cited_on_dyn : Option String → Except PyErr String
  | none => Except.error PyErr.typeError
  | some b => Except.ok (remove_cited_on b)

/-- `mi_finding` of the source: the exclusion gate first (a raised error
propagates), then body extraction, the three strippers, and the three
flaggers in order. -/
def mi_finding (report : String) (ref_date : Int) : Except PyErr Bool :=
  match exclude_no_change report ref_date with
  | Except.error e => Except.error e
  | Except.ok true => Except.ok false
  | Except.ok false =>
    match remove_cited_on_dyn (extract_body report) with
    | Except.error e => Except.error e
    | Except.ok b1 =>
      let b2 := remove_age_undetermined b1
      let b3 := remove_compared_with b2
      if flag_acutemi b3 then Except.ok true
      else if flag_infarction b3 then Except.ok true
      else if flag_ischemia b3 then Except.ok true
      else Except.ok false

/-- Occurrence of a literal as a plain (case-sensitive) substring: the
declarative reading of a literal regex search. -/
def Occurs (p s : List Char) : Prop := ∃ u v, s = u ++ p ++ v

/-- Occurrence of a literal up to ASCII case, the declarative reading of a
literal search under `re.I`. -/
def OccursCI (p s : List Char) : Prop := Occurs (lowerList p) (lowerList s)

/-- The decision formula of the exclusion gate once the first comparison
clause has been located: it searches the whole to-end tail for the
no-significant-change phrase and parses (only) the captured date `dc`. -/
def excludeFormula (dc t : List Char) (ref_date : Int) : Except PyErr Bool :=
  if containsLit (lowerList nscLit) (lowerList t) then
    match strptime_dby dc with
    | none => Except.error PyErr.valueError
    | some o => Except.ok (decide (ref_date - (o : Int) * usecPerDay > usecPerDay))
  else Except.ok false

/-- The body after the three stripper steps of `mi_finding`, in source
order. -/
def cleanedBody (b : String) : String :=
  remove_compared_with (remove_age_undetermined (remove_cited_on b))

theorem expectLit_self (l r : List Char) : expectLit l (l ++ r) = some r := by
  induction l with
  | nil => rfl
  | cons c t ih => simp [expectLit, ih]

theorem expectLit_eq_append {l s t : List Char} (h : expectLit l s = some t) : s = l ++ t := by
  induction l generalizing s with
  | nil => simp [expectLit] at h; simp [h]
  | cons c l ih =>
    cases s with
    | nil => simp [expectLit] at h
    | cons x s =>
      by_cases hx : x = c
      · subst hx
        simp only [expectLit, if_pos rfl] at h
        simpa using ih h
      · simp [expectLit, hx] at h

theorem expectLit_cons_ne {c x : Char} (l s : List Char) (hx : x ≠ c) :
    expectLit (c :: l) (x :: s) = none := by
  simp [expectLit, hx]

theorem expectLit_isSome_iff (p s : List Char) :
    (expectLit p s).isSome = true ↔ ∃ t, s = p ++ t := by
  constructor
  · intro h
    cases hE : expectLit p s with
    | none => rw [hE] at h; simp at h
    | some t => exact ⟨t, expectLit_eq_append hE⟩
  · rintro ⟨t, rfl⟩
    rw [expectLit_self]; rfl

theorem containsLit_iff (p s : List Char) : containsLit p s = true ↔ Occurs p s := by
  induction s with
  | nil =>
    simp only [containsLit, Occurs]
    rw [expectLit_isSome_iff]
    constructor
    · rintro ⟨t, ht⟩
      exact ⟨[], t, ht⟩
    · rintro ⟨u, v, huv⟩
      have hu : u = [] := by
        cases u with
        | nil => rfl
        | cons a b => simp at huv
      subst hu
      exact ⟨v, by simpa using huv⟩
  | cons c rest ih =>
    simp only [containsLit, Bool.or_eq_true]
    rw [expectLit_isSome_iff, ih]
    constructor
    · rintro (⟨t, ht⟩ | ⟨u, v, huv⟩)
      · exact ⟨[], t, ht⟩
      · exact ⟨c :: u, v, by simp [huv]⟩
    · rintro ⟨u, v, huv⟩
      cases u with
      | nil => exact Or.inl ⟨v, by simpa using huv⟩
      | cons a u2 =>
        simp only [List.cons_append, List.cons.injEq] at huv
        exact Or.inr ⟨u2, v, huv.2⟩

theorem dropWhile_all_append {p : Char → Bool} {w : List Char} (r : List Char)
    (hw : ∀ c ∈ w, p c = true) : (w ++ r).dropWhile p = r.dropWhile p := by
  induction w with
  | nil => rfl
  | cons c t ih =>
    have hc : p c = true := hw c (by simp)
    simp only [List.cons_append, List.dropWhile_cons_of_pos hc]
    exact ih (fun c hc2 => hw c (by simp [hc2]))

theorem findClause_hit {s : List Char} {r : List Char × List Char}
    (h : clauseAt s = some r) : findClause s = some r := by
  cases s with
  | nil => rw [show clauseAt ([] : List Char) = none from rfl] at h; cases h
  | cons c t => simp [findClause, h]

theorem findClause_skip (pre rest : List Char)
    (h : ∀ s1 s2, pre = s1 ++ s2 → s2 ≠ [] → clauseAt (s2 ++ rest) = none) :
    findClause (pre ++ rest) = findClause rest := by
  induction pre with
  | nil => rfl
  | cons c t ih =>
    have h0 : clauseAt ((c :: t) ++ rest) = none := h [] (c :: t) rfl (by simp)
    have hrec := ih (fun s1 s2 h12 hne => h (c :: s1) s2 (by simp [h12]) hne)
    simp only [List.cons_append] at h0 ⊢
    simp [findClause, h0, hrec]

theorem extractSearch_hit {s u g : List Char}
    (hq : qtcMatchAt s = some u) (hr : lastRefSplit u = some g) :
    extractSearch s = some g := by
  cases s with
  | nil => rw [show qtcMatchAt ([] : List Char) = none from rfl] at hq; cases hq
  | cons c t => simp [extractSearch, hq, hr]

theorem extractSearch_skip (pre rest : List Char)
    (h : ∀ s1 s2, pre = s1 ++ s2 → s2 ≠ [] → qtcMatchAt (s2 ++ rest) = none) :
    extractSearch (pre ++ rest) = extractSearch rest := by
  induction pre with
  | nil => rfl
  | cons c t ih =>
    have h0 : qtcMatchAt ((c :: t) ++ rest) = none := h [] (c :: t) rfl (by simp)
    have hrec := ih (fun s1 s2 h12 hne => h (c :: s1) s2 (by simp [h12]) hne)
    simp only [List.cons_append] at h0 ⊢
    simp [extractSearch, h0, hrec]

theorem truncAtLit_of_not {lit s : List Char} (h : ¬ Occurs lit s) :
    truncAtLit lit s = s := by
  induction s with
  | nil => rfl
  | cons c t ih =>
    have hhead : (expectLit lit (c :: t)).isSome = false := by
      cases hb : (expectLit lit (c :: t)).isSome with
      | false => rfl
      | true =>
        obtain ⟨r, hr⟩ := (expectLit_isSome_iff _ _).mp hb
        exact absurd ⟨[], r, by simpa using hr⟩ h
    have ht : ¬ Occurs lit t := fun hocc => by
      obtain ⟨u, v, huv⟩ := hocc
      exact h ⟨c :: u, v, by simp [huv]⟩
    simp [truncAtLit, hhead, ih ht]

theorem clauseLit_decomp : clauseLit = cmpLit ++ " ECG of ".toList := rfl

theorem findClause_none_of_not {s : List Char} (h : ¬ Occurs cmpLit s) :
    findClause s = none := by
  induction s with
  | nil => rfl
  | cons c t ih =>
    have hca : clauseAt (c :: t) = none := by
      cases hE : expectLit clauseLit (c :: t) with
      | none => simp [clauseAt, hE]
      | some r =>
        have hdec := expectLit_eq_append hE
        rw [clauseLit_decomp] at hdec
        exact absurd ⟨[], " ECG of ".toList ++ r, by simpa [List.append_assoc] using hdec⟩ h
    have ht : ¬ Occurs cmpLit t := fun hocc => by
      obtain ⟨u, v, huv⟩ := hocc
      exact h ⟨c :: u, v, by simp [huv]⟩
    simp [findClause, hca, ih ht]

theorem clauseAt_comp (d1 d2 m1 m2 m3 y1 y2 y3 y4 : Char) (t : List Char)
    (hC : dateClassOk d1 d2 '-' m1 m2 m3 '-' y1 y2 y3 y4 = true) :
    clauseAt (clauseLit ++ d1 :: d2 :: '-' :: m1 :: m2 :: m3 :: '-' :: y1 :: y2 :: y3 :: y4 :: t)
      = some ([d1, d2, '-', m1, m2, m3, '-', y1, y2, y3, y4], t) := by
  have hstep : clauseAt (clauseLit ++ d1 :: d2 :: '-' :: m1 :: m2 :: m3 :: '-' :: y1 :: y2 :: y3 :: y4 :: t)
      = if dateClassOk d1 d2 '-' m1 m2 m3 '-' y1 y2 y3 y4 then
          some ([d1, d2, '-', m1, m2, m3, '-', y1, y2, y3, y4], t)
        else none := rfl
  rw [hstep, hC]
  simp

theorem exclude_decomp (pre : List Char) (d1 d2 m1 m2 m3 y1 y2 y3 y4 : Char)
    (t : List Char) (ref : Int)
    (hC : dateClassOk d1 d2 '-' m1 m2 m3 '-' y1 y2 y3 y4 = true)
    (hpre : ∀ s1 s2, pre = s1 ++ s2 → s2 ≠ [] →
      clauseAt (s2 ++ (clauseLit ++ d1 :: d2 :: '-' :: m1 :: m2 :: m3 :: '-' :: y1 :: y2 :: y3 :: y4 :: t)) = none) :
    exclude_no_change
        (String.mk (pre ++ (clauseLit ++ d1 :: d2 :: '-' :: m1 :: m2 :: m3 :: '-' :: y1 :: y2 :: y3 :: y4 :: t))) ref
      = excludeFormula [d1, d2, '-', m1, m2, m3, '-', y1, y2, y3, y4] t ref := by
  unfold exclude_no_change
  rw [show (String.mk (pre ++ (clauseLit ++ d1 :: d2 :: '-' :: m1 :: m2 :: m3 :: '-' :: y1 :: y2 :: y3 :: y4 :: t))).toList
        = pre ++ (clauseLit ++ d1 :: d2 :: '-' :: m1 :: m2 :: m3 :: '-' :: y1 :: y2 :: y3 :: y4 :: t) from rfl]
  rw [findClause_skip pre _ hpre]
  rw [findClause_hit (clauseAt_comp d1 d2 m1 m2 m3 y1 y2 y3 y4 t hC)]
  rfl

theorem space_not_digit {c : Char} (h : pyIsSpace c = true) : c.isDigit = false := by
  have h6 : c = ' ' ∨ c = '\t' ∨ c = '\n' ∨ c = '\x0d' ∨ c = '\x0b' ∨ c = '\x0c' := by
    simpa [pyIsSpace, or_assoc] using h
  rcases h6 with h | h | h | h | h | h <;> subst h <;> decide

theorem digit_not_space {c : Char} (h : c.isDigit = true) : pyIsSpace c = false := by
  cases hsp : pyIsSpace c with
  | false => rfl
  | true => rw [space_not_digit hsp] at h; exact absurd h (by simp)

theorem qtcTail (d : Char) (ds2 rest : List Char) (hd : d.isDigit = true)
    (hd2 : ∀ c ∈ ds2, c.isDigit = true) :
    (if ((List.dropWhile pyIsSpace (' ' :: d :: (ds2 ++ (' ' :: 'm' :: 's' :: rest)))).takeWhile Char.isDigit).isEmpty
     then (none : Option (List Char))
     else expectLit "ms".toList
        (((List.dropWhile pyIsSpace (' ' :: d :: (ds2 ++ (' ' :: 'm' :: 's' :: rest)))).dropWhile Char.isDigit).dropWhile pyIsSpace))
      = some rest := by
  have hns : ¬ (pyIsSpace d = true) := by simp [digit_not_space hd]
  rw [show List.dropWhile pyIsSpace (' ' :: d :: (ds2 ++ (' ' :: 'm' :: 's' :: rest)))
        = List.dropWhile pyIsSpace (d :: (ds2 ++ (' ' :: 'm' :: 's' :: rest))) from rfl]
  rw [List.dropWhile_cons_of_neg hns]
  rw [List.takeWhile_cons_of_pos hd]
  rw [List.dropWhile_cons_of_pos hd]
  rw [dropWhile_all_append _ hd2]
  rw [show List.dropWhile Char.isDigit (' ' :: 'm' :: 's' :: rest) = ' ' :: 'm' :: 's' :: rest from rfl]
  rw [show List.dropWhile pyIsSpace (' ' :: 'm' :: 's' :: rest) = 'm' :: 's' :: rest from rfl]
  rw [show expectLit "ms".toList ('m' :: 's' :: rest) = some rest from expectLit_self _ _]
  simp

theorem qtcMatchAt_marker (ds rest : List Char) (hds : ds ≠ [])
    (hdig : ∀ c ∈ ds, c.isDigit = true) :
    qtcMatchAt ("QTc Int : ".toList ++ (ds ++ (" ms".toList ++ rest))) = some rest := by
  obtain ⟨d, ds2, rfl⟩ : ∃ d ds2, ds = d :: ds2 := by
    cases ds with
    | nil => exact absurd rfl hds
    | cons d ds2 => exact ⟨d, ds2, rfl⟩
  have hd : d.isDigit = true := hdig d (by simp)
  have hd2 : ∀ c ∈ ds2, c.isDigit = true := fun c hc => hdig c (by simp [hc])
  exact qtcTail d ds2 rest hd hd2

theorem refOk_cons_ne (c : Char) (s : List Char) (hc : c ≠ 'R') : refOk (c :: s) = false := by
  have h0 : expectLit "Referred".toList (c :: s) = none := by
    rw [show "Referred".toList = 'R' :: "eferred".toList from rfl]
    exact expectLit_cons_ne _ _ hc
  rw [show refOk (c :: s)
        = (match expectLit "Referred".toList (c :: s) with
           | none => false
           | some t => (expectLit "By:".toList (t.dropWhile pyIsSpace)).isSome) from rfl]
  rw [h0]

theorem lastRefSplit_none {s : List Char} (h : 'R' ∉ s) : lastRefSplit s = none := by
  induction s with
  | nil => rfl
  | cons c t ih =>
    have hc : c ≠ 'R' := fun hh => h (hh ▸ List.mem_cons_self c t)
    have ht := ih (fun hm => h (List.mem_cons_of_mem c hm))
    simp [lastRefSplit, ht, refOk_cons_ne c t hc]

theorem lastRefSplit_hit (mid post : List Char) (h : 'R' ∉ post) :
    lastRefSplit (mid ++ ("Referred By:".toList ++ post)) = some mid := by
  induction mid with
  | nil =>
    have hn : lastRefSplit ("eferred By:".toList ++ post) = none := by
      apply lastRefSplit_none
      intro hm
      rcases List.mem_append.mp hm with hm1 | hm2
      · exact absurd hm1 (by decide)
      · exact h hm2
    have hr : refOk ('R' :: ("eferred By:".toList ++ post)) = true := by
      show (expectLit "By:".toList (('B' :: 'y' :: ':' :: post))).isSome = true
      rw [show expectLit "By:".toList ('B' :: 'y' :: ':' :: post) = some post from expectLit_self _ _]
      rfl
    show lastRefSplit ('R' :: ("eferred By:".toList ++ post)) = some []
    rw [show lastRefSplit ('R' :: ("eferred By:".toList ++ post))
          = (match lastRefSplit ("eferred By:".toList ++ post) with
             | some g => some ('R' :: g)
             | none => if refOk ('R' :: ("eferred By:".toList ++ post)) then some [] else none)
          from rfl]
    rw [hn, hr]
    simp
  | cons c t ih =>
    simp only [List.cons_append]
    rw [show lastRefSplit (c :: (t ++ ("Referred By:".toList ++ post)))
          = (match lastRefSplit (t ++ ("Referred By:".toList ++ post)) with
             | some g => some (c :: g)
             | none => if refOk (c :: (t ++ ("Referred By:".toList ++ post))) then some [] else none)
          from rfl]
    rw [ih]

theorem citedAt_cons_ne (c : Char) (s : List Char) (hc : c ≠ '(') : citedAt (c :: s) = none := by
  have h0 : expectLit citedLit (c :: s) = none := by
    rw [show citedLit = '(' :: "cited on or before ".toList from rfl]
    exact expectLit_cons_ne _ _ hc
  rw [show citedAt (c :: s)
        = (match expectLit citedLit (c :: s) with
           | none => none
           | some t =>
             match t with
             | d1 :: d2 :: h1 :: m1 :: m2 :: m3 :: h2 :: y1 :: y2 :: y3 :: y4 :: cp :: rest =>
               if dateClassOk d1 d2 h1 m1 m2 m3 h2 y1 y2 y3 y4 && cp == ')' then some rest
               else none
             | _ => none) from rfl]
  rw [h0]

theorem gds_cited_none (s b : List Char) (hs : ∀ c ∈ s, c ≠ '(') :
    greedyDotStar citedAt (s ++ '\n' :: b) = none := by
  induction s with
  | nil =>
    show greedyDotStar citedAt ('\n' :: b) = none
    rw [show greedyDotStar citedAt ('\n' :: b)
          = (if '\n' = '\n' then citedAt ('\n' :: b)
             else match greedyDotStar citedAt b with
                  | some r => some r
                  | none => citedAt ('\n' :: b)) from rfl]
    simp [citedAt_cons_ne '\n' b (by decide)]
  | cons c t ih =>
    have hc : c ≠ '(' := hs c (by simp)
    have ht := ih (fun x hx => hs x (by simp [hx]))
    simp only [List.cons_append]
    rw [show greedyDotStar citedAt (c :: (t ++ '\n' :: b))
          = (if c = '\n' then citedAt (c :: (t ++ '\n' :: b))
             else match greedyDotStar citedAt (t ++ '\n' :: b) with
                  | some r => some r
                  | none => citedAt (c :: (t ++ '\n' :: b))) from rfl]
    rw [ht, citedAt_cons_ne c _ hc]
    simp

theorem remove_cited_line (a b : List Char) (ha : ∀ c ∈ a, c ≠ '(') :
    scanSub matchCitedAt (a ++ '\n' :: b).length (a ++ '\n' :: b)
      = a ++ '\n' :: scanSub matchCitedAt b.length b := by
  induction a with
  | nil =>
    have hm : matchCitedAt ('\n' :: b) = none := by
      show greedyDotStar citedAt (([] : List Char) ++ '\n' :: b) = none
      exact gds_cited_none [] b (by simp)
    simp only [List.nil_append, List.length_cons]
    rw [show scanSub matchCitedAt (b.length + 1) ('\n' :: b)
          = (match matchCitedAt ('\n' :: b) with
             | some r => scanSub matchCitedAt b.length r
             | none => '\n' :: scanSub matchCitedAt b.length b) from rfl]
    rw [hm]
  | cons c t ih =>
    have hm : matchCitedAt (c :: (t ++ '\n' :: b)) = none := by
      show greedyDotStar citedAt ((c :: t) ++ '\n' :: b) = none
      exact gds_cited_none (c :: t) b ha
    have iht := ih (fun x hx => ha x (by simp [hx]))
    simp only [List.cons_append, List.length_cons]
    rw [show scanSub matchCitedAt ((t ++ '\n' :: b).length + 1) (c :: (t ++ '\n' :: b))
          = (match matchCitedAt (c :: (t ++ '\n' :: b)) with
             | some r => scanSub matchCitedAt (t ++ '\n' :: b).length r
             | none => c :: scanSub matchCitedAt (t ++ '\n' :: b).length (t ++ '\n' :: b)) from rfl]
    rw [hm, iht]

theorem flag_infarction_of_prefix (a X : List Char) (hinf : OccursCI infLit a) :
    flag_infarction (String.mk (a ++ X)) = true := by
  obtain ⟨u, v, huv⟩ := hinf
  apply (containsLit_iff (lowerList infLit) (lowerList (a ++ X))).mpr
  refine ⟨u, v ++ lowerList X, ?_⟩
  rw [show lowerList (a ++ X) = lowerList a ++ lowerList X from List.map_append _ _ _, huv]
  simp [List.append_assoc]

/-- C1: the claim states that a report lacking the QTc/Referred-By marker
pair flows through the strippers as an empty body and `mi_finding` returns
false.  On the code this fails: `extract_body` returns `False`, the first
stripper's `re.sub` is applied to it and raises `TypeError: expected string
or bytes-like object`, so `mi_finding` crashes instead of returning false.
Evaluation at a marker-free report (the claim's own scenario, gate not
firing). -/
theorem c1_extraction_failure_crashes :
    extract_body "Sinus rhythm, no acute findings." = none ∧
    exclude_no_change "Sinus rhythm, no acute findings." 0 = Except.ok false ∧
    mi_finding "Sinus rhythm, no acute findings." 0 = Except.error PyErr.typeError :=
  ⟨rfl, rfl, rfl⟩

/-- C2 counterexample: with two `Referred By:` occurrences after the marker
the greedy group of the source regex runs to the LAST one, so the extracted
body is "A Referred By: B", not the "A" that stopping at the earlier
occurrence would give. -/
theorem c2_counterexample :
    extract_body "QTc Int : 400 ms A Referred By: B Referred By: C" = some "A Referred By: B" ∧
    extract_body "QTc Int : 400 ms A Referred By: B Referred By: C" ≠ some "A" :=
  ⟨rfl, by decide⟩

/-- C2 amended: for a report `pre ++ "QTc Int : " ++ ds ++ " ms" ++ mid ++
"Referred By:" ++ post` with nonempty digit run `ds`, no marker match
starting inside `pre`, and no later `Referred By:` start (no 'R') in
`post`, `extract_body` returns the text strictly between the first marker
and the LAST occurrence of "Referred By:" — the whole of `mid`, which may
itself contain earlier "Referred By:" occurrences — trimmed of
whitespace. -/
theorem c2_amended_last_referred_by (pre ds mid post : List Char)
    (hds : ds ≠ []) (hdig : ∀ c ∈ ds, c.isDigit = true)
    (hpre : ∀ s1 s2, pre = s1 ++ s2 → s2 ≠ [] →
      qtcMatchAt (s2 ++ ("QTc Int : ".toList ++ (ds ++ (" ms".toList ++
        (mid ++ ("Referred By:".toList ++ post)))))) = none)
    (hpost : 'R' ∉ post) :
    extract_body (String.mk (pre ++ ("QTc Int : ".toList ++ (ds ++ (" ms".toList ++
        (mid ++ ("Referred By:".toList ++ post)))))))
      = some (String.mk (pyStrip mid)) := by
  unfold extract_body
  rw [show (String.mk (pre ++ ("QTc Int : ".toList ++ (ds ++ (" ms".toList ++
        (mid ++ ("Referred By:".toList ++ post))))))).toList
        = pre ++ ("QTc Int : ".toList ++ (ds ++ (" ms".toList ++
        (mid ++ ("Referred By:".toList ++ post))))) from rfl]
  rw [extractSearch_skip pre _ hpre]
  rw [extractSearch_hit
    (qtcMatchAt_marker ds (mid ++ ("Referred By:".toList ++ post)) hds hdig)
    (lastRefSplit_hit mid post hpost)]
  rfl

/-- C2 witness: concrete instance of the amended statement; the captured
span runs through the earlier "Referred By:" inside `mid` up to the last
one. -/
theorem c2_witness :
    extract_body (String.mk (([] : List Char) ++ ("QTc Int : ".toList ++ ("400".toList ++
        (" ms".toList ++ (" A Referred By: B ".toList ++ ("Referred By:".toList ++ " Dr".toList)))))))
      = some (String.mk (pyStrip " A Referred By: B ".toList)) :=
  c2_amended_last_referred_by [] "400".toList " A Referred By: B ".toList " Dr".toList
    (by decide) (by decide)
    (fun s1 s2 h12 hne => absurd (List.append_eq_nil.mp h12.symm).2 hne)
    (by decide)

/-- C3: whenever the exclusion gate returns true, `mi_finding` returns false
immediately, whatever markers the report contains: the gate is evaluated
first and short-circuits before body extraction. -/
theorem c3_exclusion_shortcircuits (report : String) (ref_date : Int)
    (h : exclude_no_change report ref_date = Except.ok true) :
    mi_finding report ref_date = Except.ok false := by
  unfold mi_finding
  rw [h]

/-- C3 witness: a report carrying all three flag markers is still classified
false once the gate fires (reference four days after the compared date). -/
theorem c3_witness :
    mi_finding "* Acute MI infarction ischemia When compared with ECG of 01-Jan-2020 no significant change"
      (737429 * usecPerDay) = Except.ok false :=
  c3_exclusion_shortcircuits _ _ (by decide)

/-- C4: once the first comparison clause is located, the phrase is present in
the to-end tail, and the captured date parses to ordinal `o`,
`exclude_no_change` returns exactly the comparison
`ref_date − o·day > 1 day`: a strictly greater than one day difference
excludes, one day or less does not. -/
theorem c4_exclusion_boundary (pre : List Char) (d1 d2 m1 m2 m3 y1 y2 y3 y4 : Char)
    (t : List Char) (ref : Int) (o : Nat)
    (hC : dateClassOk d1 d2 '-' m1 m2 m3 '-' y1 y2 y3 y4 = true)
    (hpre : ∀ s1 s2, pre = s1 ++ s2 → s2 ≠ [] →
      clauseAt (s2 ++ (clauseLit ++ d1 :: d2 :: '-' :: m1 :: m2 :: m3 :: '-' ::
        y1 :: y2 :: y3 :: y4 :: t)) = none)
    (hnsc : OccursCI nscLit t)
    (hparse : strptime_dby [d1, d2, '-', m1, m2, m3, '-', y1, y2, y3, y4] = some o) :
    exclude_no_change (String.mk (pre ++ (clauseLit ++ d1 :: d2 :: '-' :: m1 :: m2 :: m3 :: '-' ::
        y1 :: y2 :: y3 :: y4 :: t))) ref
      = Except.ok (decide (ref - (o : Int) * usecPerDay > usecPerDay)) := by
  rw [exclude_decomp pre d1 d2 m1 m2 m3 y1 y2 y3 y4 t ref hC hpre]
  unfold excludeFormula
  rw [(containsLit_iff (lowerList nscLit) (lowerList t)).mpr hnsc]
  rw [hparse]
  simp

/-- C4 witness: date 01-Jan-2020 with the phrase present; a reference
exactly one day later is not excluded, one more day is. -/
theorem c4_witness :
    exclude_no_change (String.mk (([] : List Char) ++ (clauseLit ++ '0' :: '1' :: '-' :: 'J' :: 'a' :: 'n' :: '-' ::
        '2' :: '0' :: '2' :: '0' :: " no significant change".toList))) (737426 * usecPerDay)
      = Except.ok false ∧
    exclude_no_change (String.mk (([] : List Char) ++ (clauseLit ++ '0' :: '1' :: '-' :: 'J' :: 'a' :: 'n' :: '-' ::
        '2' :: '0' :: '2' :: '0' :: " no significant change".toList))) (737427 * usecPerDay)
      = Except.ok true := by
  constructor
  · exact (c4_exclusion_boundary [] '0' '1' 'J' 'a' 'n' '2' '0' '2' '0'
      " no significant change".toList (737426 * usecPerDay) 737425 (by decide)
      (fun s1 s2 h12 hne => absurd (List.append_eq_nil.mp h12.symm).2 hne)
      ⟨" ".toList, [], by decide⟩ (by decide)).trans (by decide)
  · exact (c4_exclusion_boundary [] '0' '1' 'J' 'a' 'n' '2' '0' '2' '0'
      " no significant change".toList (737427 * usecPerDay) 737425 (by decide)
      (fun s1 s2 h12 hne => absurd (List.append_eq_nil.mp h12.symm).2 hne)
      ⟨" ".toList, [], by decide⟩ (by decide)).trans (by decide)

/-- C5 counterexample: a comparison clause IS found and its captured date
"01-Abc-2020" does not parse, yet — the phrase being absent — the code never
reaches `strptime` and silently returns not-excluded instead of propagating
a parse error, so the claim as stated (for every such report) is false. -/
theorem c5_counterexample :
    (findClause (String.toList "When compared with ECG of 01-Abc-2020 stable tracing")).isSome = true ∧
    strptime_dby "01-Abc-2020".toList = none ∧
    exclude_no_change "When compared with ECG of 01-Abc-2020 stable tracing" 0 = Except.ok false :=
  ⟨rfl, rfl, rfl⟩

/-- C5 amended: the parse error propagates exactly when the text following
the first clause contains "no significant change" case-insensitively; in
that case a shape-valid but unparseable captured date makes
`exclude_no_change` raise `ValueError` to the caller. -/
theorem c5_amended_parse_error (pre : List Char) (d1 d2 m1 m2 m3 y1 y2 y3 y4 : Char)
    (t : List Char) (ref : Int)
    (hC : dateClassOk d1 d2 '-' m1 m2 m3 '-' y1 y2 y3 y4 = true)
    (hpre : ∀ s1 s2, pre = s1 ++ s2 → s2 ≠ [] →
      clauseAt (s2 ++ (clauseLit ++ d1 :: d2 :: '-' :: m1 :: m2 :: m3 :: '-' ::
        y1 :: y2 :: y3 :: y4 :: t)) = none)
    (hnsc : OccursCI nscLit t)
    (hparse : strptime_dby [d1, d2, '-', m1, m2, m3, '-', y1, y2, y3, y4] = none) :
    exclude_no_change (String.mk (pre ++ (clauseLit ++ d1 :: d2 :: '-' :: m1 :: m2 :: m3 :: '-' ::
        y1 :: y2 :: y3 :: y4 :: t))) ref
      = Except.error PyErr.valueError := by
  rw [exclude_decomp pre d1 d2 m1 m2 m3 y1 y2 y3 y4 t ref hC hpre]
  unfold excludeFormula
  rw [(containsLit_iff (lowerList nscLit) (lowerList t)).mpr hnsc]
  rw [hparse]
  simp

/-- C5 witness: unparseable month "Abc" with the phrase present raises. -/
theorem c5_witness :
    exclude_no_change (String.mk (([] : List Char) ++ (clauseLit ++ '0' :: '1' :: '-' :: 'A' :: 'b' :: 'c' :: '-' ::
        '2' :: '0' :: '2' :: '0' :: " no significant change".toList))) 0
      = Except.error PyErr.valueError :=
  c5_amended_parse_error [] '0' '1' 'A' 'b' 'c' '2' '0' '2' '0'
    " no significant change".toList 0 (by decide)
    (fun s1 s2 h12 hne => absurd (List.append_eq_nil.mp h12.symm).2 hne)
    ⟨" ".toList, [], by decide⟩ (by decide)

/-- C6 counterexample: "infarction" lies before the cited-on parenthetical
ON THE SAME LINE; the greedy leading `.*` of `remove_cited_on` deletes the
whole span including it, and `flag_infarction` no longer fires — the claim
as stated is false. -/
theorem c6_counterexample :
    flag_infarction "infarction (cited on or before 01-Jan-2020)" = true ∧
    remove_cited_on "infarction (cited on or before 01-Jan-2020)" = "" ∧
    flag_infarction (remove_cited_on "infarction (cited on or before 01-Jan-2020)") = false :=
  ⟨rfl, rfl, rfl⟩

/-- C6 amended: an "infarc" occurrence on an EARLIER LINE than the cited-on
parenthetical — a line containing no '(' at all — survives
`remove_cited_on` unchanged (the dot of the stale-line pattern cannot cross
the newline), and `flag_infarction` still returns true on the stripped
text. -/
theorem c6_amended_earlier_line (a b : List Char) (ha : '(' ∉ a)
    (hinf : OccursCI infLit a) :
    flag_infarction (remove_cited_on (String.mk (a ++ '\n' :: b))) = true := by
  have hstrip : remove_cited_on (String.mk (a ++ '\n' :: b))
      = String.mk (a ++ '\n' :: scanSub matchCitedAt b.length b) := by
    unfold remove_cited_on
    rw [show (String.mk (a ++ '\n' :: b)).toList = a ++ '\n' :: b from rfl]
    rw [remove_cited_line a b (fun c hc heq => ha (heq ▸ hc))]
  rw [hstrip]
  exact flag_infarction_of_prefix a _ hinf

/-- C6 witness: infarct on the first line, cited-on clause on the second. -/
theorem c6_witness :
    flag_infarction (remove_cited_on (String.mk ("old infarct noted".toList ++ '\n' ::
        "x (cited on or before 01-Jan-2020)".toList))) = true :=
  c6_amended_earlier_line "old infarct noted".toList "x (cited on or before 01-Jan-2020)".toList
    (by decide) ⟨"old ".toList, "t noted".toList, by decide⟩

/-- C7: `flag_acutemi` returns true exactly when its input contains the
literal "* acute mi" in any letter case; and a report that passes the gate,
extracts a body, and whose cleaned body (after the three strippers)
contains that literal is classified true by `mi_finding`. -/
theorem c7_acutemi :
    (∀ s : String, flag_acutemi s = true ↔ OccursCI amiLit s.toList) ∧
    (∀ (report : String) (ref_date : Int) (b : String),
      exclude_no_change report ref_date = Except.ok false →
      extract_body report = some b →
      OccursCI amiLit (cleanedBody b).toList →
      mi_finding report ref_date = Except.ok true) := by
  constructor
  · intro s
    exact containsLit_iff (lowerList amiLit) (lowerList s.toList)
  · intro report ref_date b hexc hb hami
    have hflag : flag_acutemi (cleanedBody b) = true :=
      (containsLit_iff (lowerList amiLit) (lowerList (cleanedBody b).toList)).mpr hami
    unfold mi_finding
    rw [hexc, hb]
    show (if flag_acutemi (cleanedBody b) then Except.ok true
          else if flag_infarction (cleanedBody b) then Except.ok true
          else if flag_ischemia (cleanedBody b) then Except.ok true
          else Except.ok false) = Except.ok true
    rw [hflag]
    simp

/-- C7 witness: scenario 2 of the spec — valid header, marker in the body,
referring footer. -/
theorem c7_witness :
    mi_finding "QTc Int : 400 ms Normal sinus rhythm. * Acute MI noted. Referred By: Dr. Smith" 0
      = Except.ok true :=
  c7_acutemi.2 _ 0 "Normal sinus rhythm. * Acute MI noted." (by decide) (by decide)
    ⟨"normal sinus rhythm. ".toList, " noted.".toList, by decide⟩

/-- C8: with two comparison clauses present, the decision is the formula of
the FIRST clause's captured date together with the whole remaining tail; the
second clause sits in that tail as plain text searched only for the phrase,
and its date is never given to `strptime`. -/
theorem c8_first_clause_only (pre mid post : List Char)
    (d1 d2 m1 m2 m3 y1 y2 y3 y4 e1 e2 f1 f2 f3 g1 g2 g3 g4 : Char) (ref : Int)
    (hC1 : dateClassOk d1 d2 '-' m1 m2 m3 '-' y1 y2 y3 y4 = true)
    (hC2 : dateClassOk e1 e2 '-' f1 f2 f3 '-' g1 g2 g3 g4 = true)
    (hpre : ∀ s1 s2, pre = s1 ++ s2 → s2 ≠ [] →
      clauseAt (s2 ++ (clauseLit ++ d1 :: d2 :: '-' :: m1 :: m2 :: m3 :: '-' ::
        y1 :: y2 :: y3 :: y4 :: (mid ++ (clauseLit ++ e1 :: e2 :: '-' :: f1 :: f2 :: f3 :: '-' ::
        g1 :: g2 :: g3 :: g4 :: post)))) = none) :
    exclude_no_change (String.mk (pre ++ (clauseLit ++ d1 :: d2 :: '-' :: m1 :: m2 :: m3 :: '-' ::
        y1 :: y2 :: y3 :: y4 :: (mid ++ (clauseLit ++ e1 :: e2 :: '-' :: f1 :: f2 :: f3 :: '-' ::
        g1 :: g2 :: g3 :: g4 :: post))))) ref
      = excludeFormula [d1, d2, '-', m1, m2, m3, '-', y1, y2, y3, y4]
          (mid ++ (clauseLit ++ e1 :: e2 :: '-' :: f1 :: f2 :: f3 :: '-' ::
            g1 :: g2 :: g3 :: g4 :: post)) ref :=
  exclude_decomp pre d1 d2 m1 m2 m3 y1 y2 y3 y4 _ ref hC1 hpre

/-- C8 witness: the first clause (01-Jan-2020, two days before the
reference, phrase present later in the tail) decides exclusion; the second
clause's later date 31-Dec-2020 — which on its own would not exclude — is
inert text. -/
theorem c8_witness :
    exclude_no_change (String.mk (([] : List Char) ++ (clauseLit ++ '0' :: '1' :: '-' :: 'J' :: 'a' :: 'n' :: '-' ::
        '2' :: '0' :: '2' :: '0' :: (" stable ".toList ++ (clauseLit ++ '3' :: '1' :: '-' :: 'D' :: 'e' :: 'c' :: '-' ::
        '2' :: '0' :: '2' :: '0' :: " no significant change".toList))))) (737427 * usecPerDay)
      = Except.ok true :=
  (c8_first_clause_only [] " stable ".toList " no significant change".toList
    '0' '1' 'J' 'a' 'n' '2' '0' '2' '0' '3' '1' 'D' 'e' 'c' '2' '0' '2' '0'
    (737427 * usecPerDay) (by decide) (by decide)
    (fun s1 s2 h12 hne => absurd (List.append_eq_nil.mp h12.symm).2 hne)).trans (by decide)

/-- C9: the literal "When compared with" is matched case-sensitively in both
the exclusion gate and the comparison stripper: a report with no exact-case
occurrence of it is neither excluded on (gate returns ok-false) nor
truncated (`remove_compared_with` is the identity). -/
theorem c9_case_sensitive (s : String) (ref_date : Int)
    (h : ¬ Occurs cmpLit s.toList) :
    exclude_no_change s ref_date = Except.ok false ∧ remove_compared_with s = s := by
  constructor
  · unfold exclude_no_change
    rw [findClause_none_of_not h]
  · unfold remove_compared_with
    rw [truncAtLit_of_not h]
    cases s
    rfl

/-- C9 witness: the clause present only in lower case is ignored by both
functions. -/
theorem c9_witness :
    exclude_no_change "when compared with ECG of 01-Jan-2020 no significant change" 737427
        = Except.ok false ∧
    remove_compared_with "when compared with ECG of 01-Jan-2020 no significant change"
        = "when compared with ECG of 01-Jan-2020 no significant change" :=
  c9_case_sensitive _ 737427 (fun hocc =>
    absurd ((containsLit_iff cmpLit
      (String.toList "when compared with ECG of 01-Jan-2020 no significant change")).mpr hocc)
      (by decide))

/-- C10: the captured comparison date is handed to `strptime` only when the
phrase check succeeds: with a shape-valid but unparseable date and no
"no significant change" in the to-end tail, `exclude_no_change` returns
ok-false without raising. -/
theorem c10_parse_only_with_phrase (pre : List Char) (d1 d2 m1 m2 m3 y1 y2 y3 y4 : Char)
    (t : List Char) (ref : Int)
    (hC : dateClassOk d1 d2 '-' m1 m2 m3 '-' y1 y2 y3 y4 = true)
    (hpre : ∀ s1 s2, pre = s1 ++ s2 → s2 ≠ [] →
      clauseAt (s2 ++ (clauseLit ++ d1 :: d2 :: '-' :: m1 :: m2 :: m3 :: '-' ::
        y1 :: y2 :: y3 :: y4 :: t)) = none)
    (hparse : strptime_dby [d1, d2, '-', m1, m2, m3, '-', y1, y2, y3, y4] = none)
    (hnsc : ¬ OccursCI nscLit t) :
    exclude_no_change (String.mk (pre ++ (clauseLit ++ d1 :: d2 :: '-' :: m1 :: m2 :: m3 :: '-' ::
        y1 :: y2 :: y3 :: y4 :: t))) ref
      = Except.ok false := by
  rw [exclude_decomp pre d1 d2 m1 m2 m3 y1 y2 y3 y4 t ref hC hpre]
  unfold excludeFormula
  have hb : containsLit (lowerList nscLit) (lowerList t) = false := by
    cases hcb : containsLit (lowerList nscLit) (lowerList t) with
    | false => rfl
    | true => exact absurd ((containsLit_iff (lowerList nscLit) (lowerList t)).mp hcb) hnsc
  rw [hb]
  simp

/-- C10 witness: month "Abc" never reaches the date parsing because the
phrase is absent; the result is a plain ok-false. -/
theorem c10_witness :
    exclude_no_change (String.mk (([] : List Char) ++ (clauseLit ++ '0' :: '1' :: '-' :: 'A' :: 'b' :: 'c' :: '-' ::
        '2' :: '0' :: '2' :: '0' :: " stable tracing".toList))) 0
      = Except.ok false :=
  c10_parse_only_with_phrase [] '0' '1' 'A' 'b' 'c' '2' '0' '2' '0'
    " stable tracing".toList 0 (by decide)
    (fun s1 s2 h12 hne => absurd (List.append_eq_nil.mp h12.symm).2 hne)
    (by decide)
    (fun hocc =>
      absurd ((containsLit_iff (lowerList nscLit) (lowerList " stable tracing".toList)).mpr hocc)
        (by decide))

end ECG
